import Mathlib

/-!
Shallow embedding of the session/run bookkeeping and settings-inheritance
logic of the mflux-commander repository, together with proofs settling the
frozen claims about it.

Sources embedded here:
- `src/mflux_commander/core/session.py` (Session: directory resolution,
  run counter)
- `src/mflux_commander/core/styles.py` (StyleManager.list_styles)
- `src/mflux_commander/core/generator.py` (Generator.generate loop)
- `src/mflux_commander/cli/main.py` (generate command flow)
- `mflux-wrapper.py` (parse_args validation, get_last_settings,
  create_output_directories, generate_images, save_run_info)

Time is modelled as an integer number of seconds; a `datetime` parsed from a
directory name becomes the integer it denotes on that timeline, and a
`timedelta` becomes an integer duration.  Directory names whose embedded
timestamp fails to parse are modelled as `none`.
-/

namespace MfluxCommander

/-! ## Python string primitives

The Lean core `String` functions (`trim`, `splitOn`, `<`) are defined by
well-founded recursion over byte positions and do not reduce in the kernel,
so the handful of Python string operations the source uses are re-implemented
here by structural recursion over the character list. -/

/-- Whitespace test used by Python `str.strip()` (restricted to the ASCII
whitespace characters, which is all that occurs in the embedded data). -/
def isSpaceChar (c : Char) : Bool :=
  c = ' ' || c = '\t' || c = '\n' || c = '\r'

/-- Python `str.strip()`: drop whitespace from both ends. -/
def pyStrip (s : String) : String :=
  ⟨(((s.data.dropWhile isSpaceChar).reverse.dropWhile isSpaceChar).reverse)⟩

/-- Helper of `pySplitComma`: split a character list at every comma. -/
def splitCommaAux : List Char → List Char → List (List Char)
  | [], acc => [acc.reverse]
  | c :: rest, acc =>
    if c = ',' then acc.reverse :: splitCommaAux rest []
    else splitCommaAux rest (c :: acc)

/-- Python `s.split(",")`: the comma-separated fields of `s`. -/
def pySplitComma (s : String) : List String :=
  (splitCommaAux s.data []).map (fun l => ⟨l⟩)

/-- Helper of `pySplit1Comma`: break a character list at the first comma,
returning the part before it and the part after it. -/
def breakAtComma : List Char → Option (List Char × List Char)
  | [] => none
  | c :: rest =>
    if c = ',' then some ([], rest)
    else (breakAtComma rest).map (fun p => (c :: p.1, p.2))

/-- Python `s.split(",", 1)` when it yields two parts, i.e. the text before
the first comma and the remainder after it; `none` when `s` has no comma
(so that `"," in s` is false). -/
def pySplit1Comma (s : String) : Option (String × String) :=
  (breakAtComma s.data).map (fun p => (⟨p.1⟩, ⟨p.2⟩))

/-- Lexicographic code-point comparison of character lists, the order Python
uses on strings (and on the final component of `Path` values). -/
def charListLt : List Char → List Char → Bool
  | [], [] => false
  | [], _ :: _ => true
  | _ :: _, [] => false
  | a :: as, b :: bs =>
    if a.toNat < b.toNat then true
    else if b.toNat < a.toNat then false
    else charListLt as bs

/-- Python `<` on strings. -/
def strLt (s t : String) : Bool :=
  charListLt s.data t.data

/-- Python `int()` applied to a string (after `.strip()`): optional sign
followed by one or more decimal digits; any other shape raises `ValueError`,
modelled as `none`.  (Underscore digit separators are not modelled.) -/
def pyInt (s : String) : Option Int :=
  let digitsVal : List Char → Option Int := fun l =>
    if l ≠ [] ∧ l.all Char.isDigit then
      some (l.foldl (fun a c => a * 10 + ((c.toNat : Int) - 48)) 0)
    else
      none
  match (pyStrip s).data with
  | '-' :: rest => (digitsVal rest).map (fun n => -n)
  | '+' :: rest => digitsVal rest
  | l => digitsVal l

/-! ## Session directory resolution (`session.py`, `_find_valid_session` /
`_get_or_create_session_dir`)

A candidate directory under the base dir is a pair of its name and the
timestamp parsed from the name (`none` when parsing raised
`ValueError`/`IndexError`, which the code skips with `continue`). -/

/-- Candidate session directory: name, and the timestamp embedded in the
name when it parses (`none` models a malformed name). -/
abbrev SessEntry := String × Option Int

/-- Eligibility test of `_find_valid_session`: the code compares the
absolute time difference to the timeout, `abs(current_time - timestamp) <
timeout` (strict). -/
def isEligible (now timeout t : Int) : Bool :=
  decide (|now - t| < timeout)

/-- Candidates that survive the scan loop of `_find_valid_session`:
malformed names are skipped, and a parsed timestamp `t` is kept (as the
pair `(timestamp, d)` the code appends to `sessions`) iff
`abs(now - t) < timeout`. -/
def eligiblePairs (now timeout : Int) (entries : List SessEntry) :
    List (Int × String) :=
  entries.filterMap (fun e =>
    match e.2 with
    | some t => if isEligible now timeout t then some (t, e.1) else none
    | none => none)

/-- Larger of two `(timestamp, name)` pairs in the lexicographic order used
by Python's `sorted` on `(datetime, Path)` tuples; `sorted(sessions,
reverse=True)[0]` is the maximum in this order. -/
def maxPair (a b : Int × String) : Int × String :=
  if a.1 < b.1 then b
  else if b.1 < a.1 then a
  else if strLt a.2 b.2 then b
  else a

/-- `Session._find_valid_session`: scan the candidate directories, keep the
eligible ones, and return the name of the greatest `(timestamp, name)` pair
(the head of the reverse-sorted list); `none` when no candidate qualifies. -/
def findValidSession (now timeout : Int) (entries : List SessEntry) :
    Option String :=
  match eligiblePairs now timeout entries with
  | [] => none
  | x :: xs => some ((xs.foldl maxPair x).2)

/-- Name of a freshly created session directory,
`mflux_output_{timestamp}`; the `strftime` rendering of the creation time
is abstracted to the decimal form of the integer time. -/
def newSessionName (now : Int) : String :=
  "mflux_output_" ++ toString now

/-- Outcome of `Session._get_or_create_session_dir`: either an existing
directory is reused, or a new one named from the current time is created
(`mkdir`). -/
inductive SessionResolution where
  | reuse (name : String)
  | create (now : Int)
deriving Repr, DecidableEq

/-- `Session._get_or_create_session_dir`: unless `force_new` is set, reuse
the session found by `_find_valid_session` when there is one; otherwise
create a directory named from the current timestamp. -/
def getOrCreateSessionDir (forceNew : Bool) (now timeout : Int)
    (entries : List SessEntry) : SessionResolution :=
  if forceNew = false then
    match findValidSession now timeout entries with
    | some name => .reuse name
    | none => .create now
  else .create now

/-! ## Run counter (`session.py`, `_load_run_counter` / `_save_run_counter`
/ `get_next_run_dir`) -/

/-- `Session._load_run_counter`: `0` when `run_counter.txt` is absent, else
`int(contents.strip())` — which raises `ValueError` (modelled as
`Except.error`) on non-integer text. -/
def loadRunCounter (counterFile : Option String) : Except String Int :=
  match counterFile with
  | none => .ok 0
  | some s =>
    match pyInt s with
    | some n => .ok n
    | none => .error "ValueError"

/-- Mutable session state touched by run allocation: the contents of
`run_counter.txt` (`none` when the file does not exist) and the in-memory
`run_counter` field. -/
structure SessState where
  counterFile : Option String
  runCounter : Int
deriving Repr, DecidableEq

/-- `Session.get_next_run_dir`: increment the counter, derive the run
directory name `run_{counter}`, persist the counter
(`_save_run_counter` writes `str(self.run_counter)`), and return the new
state together with the allocated run id and directory name. -/
def getNextRunDir (s : SessState) : SessState × Int × String :=
  let c := s.runCounter + 1
  (⟨some (toString c), c⟩, c, "run_" ++ toString c)

/-- Sequence of `N` sequential `get_next_run_dir` calls, collecting the
allocated `(run id, directory name)` pairs in order. -/
def allocRuns : Nat → SessState → SessState × List (Int × String)
  | 0, s => (s, [])
  | n + 1, s =>
    let (s', r) := getNextRunDir s
    let (s'', rs) := allocRuns n s'
    (s'', r :: rs)

example : loadRunCounter none = .ok 0 := rfl
example : loadRunCounter (some " 12 ") = .ok 12 := rfl
example : loadRunCounter (some "abc") = .error "ValueError" := rfl
example :
    (allocRuns 3 ⟨none, 0⟩).2 = [(1, "run_1"), (2, "run_2"), (3, "run_3")] := by
  decide

lemma allocRuns_snd (n : Nat) (s : SessState) :
    (allocRuns n s).2 = (List.range n).map
      (fun i : Nat =>
        (s.runCounter + (i : Int) + 1,
          "run_" ++ toString (s.runCounter + (i : Int) + 1))) := by
  induction n generalizing s with
  | zero => simp [allocRuns]
  | succ n ih =>
    simp only [allocRuns, getNextRunDir, ih]
    rw [List.range_succ_eq_map, List.map_cons, List.map_map]
    refine congrArg₂ List.cons ?_ ?_
    · simp
    · refine List.map_congr_left (fun i _ => ?_)
      have h : s.runCounter + 1 + (i : Int) + 1 = s.runCounter + ((i + 1 : Nat) : Int) + 1 := by
        push_cast; ring
      simp only [Function.comp_apply, h]

lemma allocRuns_fst (n : Nat) (s : SessState) :
    (allocRuns n s).1 =
      ⟨if n = 0 then s.counterFile else some (toString (s.runCounter + n)),
        s.runCounter + n⟩ := by
  induction n generalizing s with
  | zero => simp [allocRuns]
  | succ n ih =>
    simp only [allocRuns, getNextRunDir, ih]
    have h : s.runCounter + 1 + (n : Int) = s.runCounter + ((n + 1 : Nat) : Int) := by
      push_cast; ring
    rcases Nat.eq_zero_or_pos n with h0 | h0
    · subst h0; simp
    · rw [if_neg (by omega), if_neg (by omega), h]

/-- C1: for any sequence of `N` sequential run allocations against one
session starting from a freshly created session with no persisted counter,
the allocator reads the persisted counter (`0` when the file is absent),
increments it by one, creates the run directory named by the new counter
value, and persists the updated counter, so the resulting run ids are
exactly `1..N` with no repeats. -/
theorem counter_monotonicity (N : Nat) :
    loadRunCounter none = .ok 0
    ∧ (allocRuns N ⟨none, 0⟩).2 =
        (List.range N).map
          (fun i : Nat => (((i : Int) + 1), "run_" ++ toString ((i : Int) + 1)))
    ∧ ((allocRuns N ⟨none, 0⟩).2.map Prod.fst).Nodup
    ∧ (allocRuns N ⟨none, 0⟩).1.runCounter = N
    ∧ (allocRuns N ⟨none, 0⟩).1.counterFile
        = if N = 0 then none else some (toString (N : Int)) := by
  refine ⟨rfl, ?_, ?_, ?_, ?_⟩
  · rw [allocRuns_snd]; simp
  · rw [allocRuns_snd, List.map_map]
    refine List.Nodup.map ?_ (List.nodup_range N)
    intro a b h
    simp only [Function.comp_apply] at h
    omega
  · rw [allocRuns_fst]; simp
  · rw [allocRuns_fst]; simp

/-- C2: a session created at time `T` is reused by a resolution request at
`T + timeout - ε` and not by one at `T + timeout + ε` (which creates a new
session directory instead); for requests at or after the creation time,
eligibility is exactly the strict comparison `now - created_at < timeout`. -/
theorem session_reuse_window (T ε timeout now t : Int)
    (hε : 0 < ε) (hεt : ε < timeout) (hts : t ≤ now) :
    getOrCreateSessionDir false (T + timeout - ε) timeout [("S", some T)]
      = .reuse "S"
    ∧ getOrCreateSessionDir false (T + timeout + ε) timeout [("S", some T)]
      = .create (T + timeout + ε)
    ∧ (isEligible now timeout t = true ↔ now - t < timeout) := by
  have h1 : isEligible (T + timeout - ε) timeout T = true := by
    simp only [isEligible, decide_eq_true_eq]
    rw [show T + timeout - ε - T = timeout - ε by ring, abs_of_nonneg (by omega)]
    omega
  have h2 : isEligible (T + timeout + ε) timeout T = false := by
    simp only [isEligible, decide_eq_false_iff_not]
    rw [show T + timeout + ε - T = timeout + ε by ring, abs_of_nonneg (by omega)]
    omega
  refine ⟨?_, ?_, ?_⟩
  · simp [getOrCreateSessionDir, findValidSession, eligiblePairs, h1]
  · simp [getOrCreateSessionDir, findValidSession, eligiblePairs, h2]
  · simp only [isEligible, decide_eq_true_eq,
      abs_of_nonneg (show (0 : Int) ≤ now - t by omega)]

/-- Witness for `session_reuse_window` at `T = 0`, `ε = 1`, `timeout = 4`,
`now = 2`, `t = 0`. -/
theorem session_reuse_window_witness :
    getOrCreateSessionDir false (0 + 4 - 1) 4 [("S", some 0)] = .reuse "S"
    ∧ getOrCreateSessionDir false (0 + 4 + 1) 4 [("S", some 0)] = .create (0 + 4 + 1)
    ∧ (isEligible 2 4 0 = true ↔ (2 : Int) - 0 < 4) :=
  session_reuse_window 0 1 4 2 0 (by decide) (by decide) (by decide)

lemma maxPair_eq_or (a b : Int × String) : maxPair a b = a ∨ maxPair a b = b := by
  unfold maxPair
  split
  · exact Or.inr rfl
  · split
    · exact Or.inl rfl
    · split
      · exact Or.inr rfl
      · exact Or.inl rfl

lemma left_le_maxPair (a b : Int × String) : a.1 ≤ (maxPair a b).1 := by
  unfold maxPair
  split
  · omega
  · split
    · omega
    · split <;> omega

lemma right_le_maxPair (a b : Int × String) : b.1 ≤ (maxPair a b).1 := by
  unfold maxPair
  split
  · omega
  · split
    · omega
    · split <;> omega

lemma foldl_maxPair_mem : ∀ (xs : List (Int × String)) (x : Int × String),
    xs.foldl maxPair x ∈ x :: xs
  | [], x => by simp
  | y :: ys, x => by
    have h := foldl_maxPair_mem ys (maxPair x y)
    have hxy := maxPair_eq_or x y
    simp only [List.foldl_cons]
    rcases List.mem_cons.mp h with h' | h'
    · rcases hxy with h2 | h2 <;> rw [h'] <;> simp [h2]
    · simp [h']

lemma foldl_maxPair_le : ∀ (xs : List (Int × String)) (x p : Int × String),
    p ∈ x :: xs → p.1 ≤ (xs.foldl maxPair x).1
  | [], x, p, hp => by
    simp only [List.mem_singleton] at hp
    simp [hp]
  | y :: ys, x, p, hp => by
    simp only [List.foldl_cons]
    rcases List.mem_cons.mp hp with h' | h'
    · calc p.1 = x.1 := by rw [h']
        _ ≤ (maxPair x y).1 := left_le_maxPair x y
        _ ≤ (ys.foldl maxPair (maxPair x y)).1 :=
          foldl_maxPair_le ys (maxPair x y) (maxPair x y) (List.mem_cons_self _ _)
    · rcases List.mem_cons.mp h' with h2 | h2
      · calc p.1 = y.1 := by rw [h2]
          _ ≤ (maxPair x y).1 := right_le_maxPair x y
          _ ≤ (ys.foldl maxPair (maxPair x y)).1 :=
            foldl_maxPair_le ys (maxPair x y) (maxPair x y) (List.mem_cons_self _ _)
      · exact foldl_maxPair_le ys (maxPair x y) p (List.mem_cons_of_mem _ h2)

/-- C8 (amended): session resolution scans the candidate directories, skips
malformed names, keeps the candidates whose absolute time delta is under the
timeout, and selects among them the one with the MOST RECENT timestamp (the
maximum of the `(timestamp, name)` pairs) — which coincides with minimising
`|now - created_at|` only when no eligible candidate is future-dated. -/
theorem session_selection_most_recent (now timeout : Int)
    (entries : List SessEntry) (name : String)
    (h : findValidSession now timeout entries = some name) :
    ∃ t, (t, name) ∈ eligiblePairs now timeout entries
      ∧ ∀ p ∈ eligiblePairs now timeout entries, p.1 ≤ t := by
  rcases hE : eligiblePairs now timeout entries with _ | ⟨x, xs⟩
  · rw [findValidSession, hE] at h
    exact absurd h (by simp)
  · rw [findValidSession, hE] at h
    have hname : (xs.foldl maxPair x).2 = name := by
      simpa using h
    refine ⟨(xs.foldl maxPair x).1, ?_, ?_⟩
    · rw [hname.symm]
      exact foldl_maxPair_mem xs x
    · intro p hp
      exact foldl_maxPair_le xs x p hp

/-- Witness for `session_selection_most_recent` at a single eligible
candidate. -/
theorem session_selection_most_recent_witness :
    findValidSession 0 10 [("S", some 0)] = some "S"
    ∧ ∃ t, (t, "S") ∈ eligiblePairs 0 10 [("S", some 0)]
        ∧ ∀ p ∈ eligiblePairs 0 10 [("S", some 0)], p.1 ≤ t :=
  ⟨by decide, session_selection_most_recent 0 10 [("S", some 0)] "S" (by decide)⟩

/-- Counterexample to C8 as stated: with `now = 1000` and `timeout = 100`,
candidate `A` (timestamp 990, delta 10) and the future-dated candidate `B`
(timestamp 1050, delta 50) are both eligible, but the code selects `B`, the
most recent timestamp, even though `A` has the strictly smaller absolute
delta — so the selection does not minimise `|now - created_at|`. -/
theorem session_selection_counterexample :
    findValidSession 1000 100 [("A", some 990), ("B", some 1050), ("bad", none)]
      = some "B"
    ∧ isEligible 1000 100 990 = true
    ∧ |(1000 : Int) - 990| < |(1000 : Int) - 1050| := by
  refine ⟨by decide, by decide, by decide⟩

/-! ## Style store (`styles.py`, `StyleManager.list_styles`)

The styles directory is modelled as the list of parse outcomes of its
`*.json` files: `some (name, description)` for a file whose JSON parses and
has both keys, `none` for one whose read raised `JSONDecodeError` or
`KeyError` (the loop skips it with `continue`). -/

/-- Insertion step of the name-sorted listing. -/
def insertByName (x : String × String) :
    List (String × String) → List (String × String)
  | [] => [x]
  | y :: ys => if strLt y.1 x.1 then y :: insertByName x ys else x :: y :: ys

/-- `StyleManager.list_styles`: keep the style files that parse, skip the
invalid ones, and return the styles sorted by name. -/
def listStyles (files : List (Option (String × String))) :
    List (String × String) :=
  (files.filterMap id).foldr insertByName []

example :
    listStyles [some ("b", "B"), none, some ("a", "A")]
      = [("a", "A"), ("b", "B")] := by decide

/-- C9 (amended): unparseable session directory names and invalid style
files are skipped without failing the invocation, but a malformed
run-counter file is NOT defaulted: `int()` raises `ValueError`, which
propagates out of `Session.__init__` and fails the invocation. -/
theorem tolerant_reads (now timeout : Int) (nm : String)
    (entries : List SessEntry) (files : List (Option (String × String)))
    (s : String) (hs : pyInt s = none) :
    findValidSession now timeout ((nm, none) :: entries)
      = findValidSession now timeout entries
    ∧ listStyles (none :: files) = listStyles files
    ∧ loadRunCounter (some s) = .error "ValueError" := by
  refine ⟨?_, ?_, ?_⟩
  · simp [findValidSession, eligiblePairs]
  · simp [listStyles]
  · simp [loadRunCounter, hs]

/-- Witness for `tolerant_reads` at a counter file containing `"abc"`. -/
theorem tolerant_reads_witness :
    pyInt "abc" = none
    ∧ (findValidSession 0 10 [("bad", none), ("S", some 0)]
        = findValidSession 0 10 [("S", some 0)]
      ∧ listStyles (none :: [some ("a", "A")]) = listStyles [some ("a", "A")]
      ∧ loadRunCounter (some "abc") = .error "ValueError") :=
  ⟨by decide, tolerant_reads 0 10 "bad" [("S", some 0)] [some ("a", "A")] "abc" (by decide)⟩

/-- Counterexample to C9 as stated: loading the run counter from a session
directory whose counter file contains the non-integer text
`"not a number"` raises (an error), rather than yielding the
absent-counter default `0`. -/
theorem tolerant_reads_counterexample :
    loadRunCounter (some "not a number") = .error "ValueError"
    ∧ loadRunCounter (some "not a number") ≠ .ok 0 := by
  refine ⟨rfl, fun h => ?_⟩
  rw [show loadRunCounter (some "not a number") = .error "ValueError" from rfl] at h
  exact Except.noConfusion h

/-! ## Wrapper argument handling (`mflux-wrapper.py`, `parse_args`)

The mutually exclusive resolution-format flags and the argparse result are
embedded as a record; `--resolution` has argparse default `"1024x1024"`, so
the parsed value is `explicit.getD "1024x1024"` and the code cannot tell an
explicit `--resolution 1024x1024` from the default. -/

/-- Resolution-format flags of `parse_args` (a mutually exclusive group,
all defaulting to false). -/
structure ResFlags where
  landscape : Bool := false
  landscapeSm : Bool := false
  landscapeLg : Bool := false
  landscapeXl : Bool := false
  portrait : Bool := false
  portraitSm : Bool := false
  portraitLg : Bool := false
  portraitXl : Bool := false
  squareSm : Bool := false
  squareXl : Bool := false
deriving Repr, DecidableEq

/-- Format-flag record with no flag set. -/
def noResFlag : ResFlags := {}

/-- Test `any([args.landscape, ..., args.square_xl])` used by the
inheritance guard in `create_output_directories`. -/
def anyResFlag (f : ResFlags) : Bool :=
  f.landscape || f.landscapeSm || f.landscapeLg || f.landscapeXl ||
  f.portrait || f.portraitSm || f.portraitLg || f.portraitXl ||
  f.squareSm || f.squareXl

/-- Resolution presets applied by `parse_args` (`if args.landscape: ...`
chain); with no flag set, `args.resolution` is left as parsed. -/
def applyFormatFlags (f : ResFlags) (res : String) : String :=
  if f.landscape then "1024x576"
  else if f.landscapeSm then "512x288"
  else if f.landscapeLg then "1536x864"
  else if f.landscapeXl then "2048x1152"
  else if f.portrait then "768x1024"
  else if f.portraitSm then "384x512"
  else if f.portraitLg then "1152x1536"
  else if f.portraitXl then "1536x2048"
  else if f.squareSm then "512x512"
  else if f.squareXl then "2048x2048"
  else res

/-- Resolution resolution across `parse_args` and the inheritance block of
`create_output_directories`: `explicitRes` is the `--resolution` value when
the flag was passed (argparse substitutes `"1024x1024"` when it was not);
`last` is `None` when no previous run was found, else
`some last_settings["resolution"]` (itself optional, a JSON field).  The
code inherits the previous resolution exactly when no format flag is set
and the current string equals `"1024x1024"`. -/
def resolveResolution (f : ResFlags) (explicitRes : Option String)
    (last : Option (Option String)) : Option String :=
  let res := applyFormatFlags f (explicitRes.getD "1024x1024")
  match last with
  | none => some res
  | some prevRes =>
    if anyResFlag f = false ∧ res = "1024x1024" then prevRes else some res

/-- C3 (amended): an explicit format flag always overrides inheritance, an
explicit `--resolution r` overrides it whenever `r` differs from the
default string `"1024x1024"`, with no flag at all the previous run's
recorded resolution is inherited, and with no previous run the resolution
falls back to `1024x1024`; but an explicit `--resolution 1024x1024` is
indistinguishable from the default and is overridden by the inherited
value. -/
theorem resolution_precedence (e : Option String) (last : Option (Option String))
    (r pr : String) (hr : r ≠ "1024x1024") :
    resolveResolution { landscape := true } e last = some "1024x576"
    ∧ resolveResolution noResFlag (some r) last = some r
    ∧ resolveResolution noResFlag none (some (some pr)) = some pr
    ∧ resolveResolution noResFlag none none = some "1024x1024" := by
  refine ⟨?_, ?_, rfl, rfl⟩
  · rcases last with _ | prevRes <;>
      simp [resolveResolution, applyFormatFlags, anyResFlag]
  · rcases last with _ | prevRes <;>
      simp [resolveResolution, applyFormatFlags, anyResFlag, noResFlag, hr]

/-- Witness for `resolution_precedence` at `r = "512x288"`,
`pr = "512x512"`, previous resolution recorded. -/
theorem resolution_precedence_witness :
    "512x288" ≠ "1024x1024"
    ∧ (resolveResolution { landscape := true } none (some (some "512x512"))
        = some "1024x576"
      ∧ resolveResolution noResFlag (some "512x288") (some (some "512x512"))
        = some "512x288"
      ∧ resolveResolution noResFlag none (some (some "512x512")) = some "512x512"
      ∧ resolveResolution noResFlag none none = some "1024x1024") :=
  ⟨by decide,
    resolution_precedence none (some (some "512x512")) "512x288" "512x512" (by decide)⟩

/-- Counterexample to C3 as stated: with a previous run recording
`512x512`, an EXPLICIT `--resolution 1024x1024` (which coincides with the
default string) is not honoured — the previous resolution is inherited
instead of the explicit value. -/
theorem resolution_precedence_counterexample :
    resolveResolution noResFlag (some "1024x1024") (some (some "512x512"))
      = some "512x512"
    ∧ (some "512x512" : Option String) ≠ some "1024x1024" := by
  exact ⟨rfl, by decide⟩

/-- Default step count per model (`get_default_steps`): 1 for `schnell`,
5 for `dev`, 1 as fallback. -/
def getDefaultSteps (model : String) : Int :=
  if model = "schnell" then 1
  else if model = "dev" then 5
  else 1

/-- Parsed wrapper arguments (the argparse namespace of `parse_args`,
restricted to the fields the claims touch).  `iterateSteps` models the
`iterate_steps` attribute set only by the `--iterate` validation
(`hasattr` becomes `Option`). -/
structure WArgs where
  prompt : Option String := none
  model : String := "schnell"
  forceNewDir : Bool := false
  iterate : Option String := none
  steps : Option Int := none
  variations : Int := 4
  metadata : Bool := false
  seed : Option Int := none
  style : Option String := none
  iterateSteps : Option (List Int) := none
deriving Repr, DecidableEq

/-- The `[int(s.strip()) for s in args.iterate.split(",")]` comprehension:
`none` models the `ValueError` a non-integer field raises. -/
def parseStepList (s : String) : Option (List Int) :=
  (pySplitComma s).mapM pyInt

/-- Mutation applied by `parse_args` once `--iterate` validates: variations
is overridden to the list length and any manually set steps are cleared. -/
def applyIterate (a : WArgs) (l : List Int) : WArgs :=
  { a with variations := (l.length : Int), steps := none, iterateSteps := some l }

/-- Validation of `--iterate` at the end of `parse_args` (lines 150-159):
requires `--seed`, requires a comma-separated integer list, then forces the
variation count and clears manual steps. -/
def validateIterate (a : WArgs) : Except String WArgs :=
  match a.iterate with
  | none => .ok a
  | some s =>
    if a.seed = none then
      .error "--iterate requires --seed to be specified"
    else
      match parseStepList s with
      | none =>
        .error "--iterate must be a comma-separated list of integers"
      | some l => .ok (applyIterate a l)

/-- Value of a `steps` JSON field in a persisted run record: the writers
only ever produce an integer or a raw string (never a list of integers). -/
inductive StepsVal where
  | int (n : Int)
  | str (s : String)
deriving Repr, DecidableEq

/-- The `steps` field written by `save_run_info` (lines 695-710):
`args.steps if args.steps is not None else get_default_steps(args.model)` —
the `iterate` list is NOT consulted. -/
def saveRunInfoSteps (a : WArgs) : StepsVal :=
  .int (a.steps.getD (getDefaultSteps a.model))

/-- The `steps` field of the initial `run_info.json` written by
`create_output_directories` (line 297): the raw `--iterate` STRING when
iterating, else the explicit or default integer. -/
def initialInfoSteps (a : WArgs) : StepsVal :=
  match a.iterateSteps with
  | some _ => .str (a.iterate.getD "")
  | none => .int (a.steps.getD (getDefaultSteps a.model))

/-- Per-variation step count used by `generate_images` (lines 348-352):
the `i`-th entry of `iterate_steps` when iterating (bypassing the
default-step logic), else the explicit or model-default count. -/
def currentSteps (a : WArgs) (i : Nat) : Int :=
  match a.iterateSteps with
  | some l => l.getD i 0
  | none => a.steps.getD (getDefaultSteps a.model)

lemma map_getD_range : ∀ (l : List Int),
    (List.range l.length).map (fun i => l.getD i 0) = l
  | [] => rfl
  | a :: l => by
    rw [List.length_cons, List.range_succ_eq_map, List.map_cons, List.map_map]
    exact congrArg₂ List.cons rfl (map_getD_range l)

/-- C4 (amended): `--iterate 1,3,5,9 --seed 42` with no explicit variation
count forces `variations` to the length of the sequence and bypasses the
per-run default-step logic for the individual generations (variation `i`
uses the `i`-th entry of the list); but the persisted record does not hold
the list `[1,3,5,9]` in its `steps` field — the initial record stores the
raw comma string and every `save_run_info` rewrite stores the model-default
integer. -/
theorem vary_steps_forces_count (a : WArgs) (s : String) (l : List Int)
    (sd : Int) (hit : a.iterate = some s) (hseed : a.seed = some sd)
    (hl : parseStepList s = some l) :
    validateIterate a = .ok (applyIterate a l)
    ∧ (applyIterate a l).variations = (l.length : Int)
    ∧ (applyIterate a l).steps = none
    ∧ (List.range l.length).map (currentSteps (applyIterate a l)) = l
    ∧ initialInfoSteps (applyIterate a l) = .str s
    ∧ saveRunInfoSteps (applyIterate a l) = .int (getDefaultSteps a.model) := by
  refine ⟨?_, rfl, rfl, ?_, ?_, rfl⟩
  · simp [validateIterate, hit, hseed, hl]
  · have hc : currentSteps (applyIterate a l) = fun i => l.getD i 0 := by
      funext i
      simp [currentSteps, applyIterate]
    rw [hc]
    exact map_getD_range l
  · simp [initialInfoSteps, applyIterate, hit]

/-- Witness for `vary_steps_forces_count` at
`--iterate 1,3,5,9 --seed 42`. -/
theorem vary_steps_forces_count_witness :
    parseStepList "1,3,5,9" = some [1, 3, 5, 9]
    ∧ (validateIterate { prompt := some "p", iterate := some "1,3,5,9", seed := some 42 }
        = .ok (applyIterate { prompt := some "p", iterate := some "1,3,5,9", seed := some 42 } [1, 3, 5, 9])
      ∧ (applyIterate { prompt := some "p", iterate := some "1,3,5,9", seed := some 42 } [1, 3, 5, 9]).variations = ((4 : Nat) : Int)
      ∧ (applyIterate { prompt := some "p", iterate := some "1,3,5,9", seed := some 42 } [1, 3, 5, 9]).steps = none
      ∧ (List.range 4).map (currentSteps (applyIterate { prompt := some "p", iterate := some "1,3,5,9", seed := some 42 } [1, 3, 5, 9])) = [1, 3, 5, 9]
      ∧ initialInfoSteps (applyIterate { prompt := some "p", iterate := some "1,3,5,9", seed := some 42 } [1, 3, 5, 9]) = .str "1,3,5,9"
      ∧ saveRunInfoSteps (applyIterate { prompt := some "p", iterate := some "1,3,5,9", seed := some 42 } [1, 3, 5, 9]) = .int (getDefaultSteps "schnell")) :=
  ⟨rfl, vary_steps_forces_count
    { prompt := some "p", iterate := some "1,3,5,9", seed := some 42 }
    "1,3,5,9" [1, 3, 5, 9] 42 rfl rfl rfl⟩

/-- Concrete argparse result of
`--prompt p --iterate 1,3,5,9 --seed 42` (all other fields at their
argparse defaults). -/
def iterateArgsExample : WArgs :=
  { prompt := some "p", iterate := some "1,3,5,9", seed := some 42 }

/-- The same arguments after the `--iterate` validation of `parse_args`. -/
def iterateArgsValidated : WArgs :=
  applyIterate iterateArgsExample [1, 3, 5, 9]

/-- Counterexample to C4 as stated: for `--iterate 1,3,5,9 --seed 42` the
persisted record's `variations` is 4 as claimed, but its `steps` field is
NOT the list `[1,3,5,9]`: the initial record stores the raw string
`"1,3,5,9"` and the records rewritten by `save_run_info` store the
model-default integer `1`. -/
theorem vary_steps_record_counterexample :
    validateIterate iterateArgsExample = .ok iterateArgsValidated
    ∧ iterateArgsValidated.variations = 4
    ∧ initialInfoSteps iterateArgsValidated = .str "1,3,5,9"
    ∧ saveRunInfoSteps iterateArgsValidated = .int 1
    ∧ (StepsVal.int 1 ≠ StepsVal.str "1,3,5,9") := by
  refine ⟨rfl, rfl, rfl, rfl, fun h => StepsVal.noConfusion h⟩

/-! ## Seed selection in `generate_images` (`mflux-wrapper.py`, lines
341-346)

The call `random.randint(1, 1000000)` made at variation `i` when no seed
was supplied is modelled by an oracle `rng : Nat → Int` constrained to that
range. -/

/-- Seed for variation index `i` (0-based): `args.seed + i` when a seed was
given, else a fresh `random.randint(1, 1000000)` draw. -/
def seedFor (seed : Option Int) (rng : Nat → Int) (i : Nat) : Int :=
  match seed with
  | some s => s + i
  | none => rng i

/-- Seeds used across one run of `n` variations, in order. -/
def runSeeds (seed : Option Int) (rng : Nat → Int) (n : Nat) : List Int :=
  (List.range n).map (seedFor seed rng)

/-- C10: with an explicit base seed `s`, variation `i` (1-based) uses seed
`s + i - 1`, so a run's `n` seeds are the consecutive, distinct integers
`s, s+1, ..., s+n-1`; with no seed, each variation's seed is an independent
`random.randint(1, 1000000)` draw. -/
theorem seed_progression (s : Int) (n : Nat) (rng : Nat → Int)
    (hr : ∀ i, 1 ≤ rng i ∧ rng i ≤ 1000000) :
    runSeeds (some s) rng n = (List.range n).map (fun i : Nat => s + (i : Int))
    ∧ (runSeeds (some s) rng n).Nodup
    ∧ runSeeds none rng n = (List.range n).map rng
    ∧ ∀ x ∈ runSeeds none rng n, 1 ≤ x ∧ x ≤ 1000000 := by
  have h1 : runSeeds (some s) rng n
      = (List.range n).map (fun i : Nat => s + (i : Int)) := by
    refine List.map_congr_left (fun i _ => rfl)
  refine ⟨h1, ?_, rfl, ?_⟩
  · rw [h1]
    refine List.Nodup.map ?_ (List.nodup_range n)
    intro a b hab
    simpa using hab
  · intro x hx
    rcases List.mem_map.mp hx with ⟨i, _, hi⟩
    rw [show seedFor none rng i = rng i from rfl] at hi
    exact hi ▸ hr i

/-- Witness for `seed_progression` at `s = 5`, `n = 3`, and the constant
in-range oracle `rng = fun i => 7`. -/
theorem seed_progression_witness :
    runSeeds (some 5) (fun _ => 7) 3
        = (List.range 3).map (fun i : Nat => 5 + (i : Int))
    ∧ (runSeeds (some 5) (fun _ => 7) 3).Nodup
    ∧ runSeeds none (fun _ => 7) 3 = (List.range 3).map (fun _ => 7)
    ∧ ∀ x ∈ runSeeds none (fun _ => 7) 3, 1 ≤ x ∧ x ≤ 1000000 :=
  seed_progression 5 3 (fun _ => 7) (fun _ => ⟨by norm_num, by norm_num⟩)

/-! ## Generation loops

`Generator.generate` (`generator.py`, lines 31-113) runs the external
command with `check=True`, so a non-zero exit raises and aborts the
remaining iterations, leaving the last persisted `run_info` on disk.
`generate_images` (`mflux-wrapper.py`, lines 330-428) instead wraps each
iteration in `try/except CalledProcessError` and CONTINUES the loop after a
failure.  The external executable's behaviour is an oracle
`exitOk : Nat → Bool` giving the success of the invocation at each
iteration index. -/

/-- Fields of the `run_info` dictionary persisted by
`Generator._update_run_info` that the claims consult. -/
structure GenRunInfo where
  totalIterations : Nat
  completedIterations : Nat
  generatedFiles : List String
  status : String
deriving Repr, DecidableEq

/-- Seed of iteration `i` in `Generator.generate`:
`seed if seed is not None else random.randint(1, 100000)`. -/
def genSeed (seed : Option Int) (rng : Nat → Int) (i : Nat) : Int :=
  match seed with
  | some s => s
  | none => rng i

/-- Output file name `image_{current_seed}.png` of iteration `i`. -/
def genFileName (seed : Option Int) (rng : Nat → Int) (i : Nat) : String :=
  "image_" ++ toString (genSeed seed rng i) ++ ".png"

/-- The `run_info` state after `k` successful iterations of a run of `n`
(initially `k = 0`): still `in_progress`, one generated-file entry per
completed iteration. -/
def genInfoAfter (seed : Option Int) (rng : Nat → Int) (n k : Nat) :
    GenRunInfo :=
  ⟨n, k, (List.range k).map (genFileName seed rng), "in_progress"⟩

/-- Loop body of `Generator.generate`: iterate over the remaining count
with current index `i`, recording attempted indices; a success appends the
file and persists the updated info, a failure raises
`CalledProcessError` — modelled as `Except.error` carrying the last
persisted `run_info` — so no later iteration is attempted.  Exhausting the
iterations marks the run `completed`. -/
def genLoopAux (exitOk : Nat → Bool) (seed : Option Int) (rng : Nat → Int) :
    Nat → Nat → GenRunInfo → List Nat →
      List Nat × Except GenRunInfo GenRunInfo
  | 0, _, info, att => (att, .ok { info with status := "completed" })
  | rem + 1, i, info, att =>
    if exitOk i then
      genLoopAux exitOk seed rng rem (i + 1)
        { info with
            completedIterations := i + 1,
            generatedFiles := info.generatedFiles ++ [genFileName seed rng i] }
        (att ++ [i])
    else (att ++ [i], .error info)

/-- `Generator.generate` for `n` iterations: the attempted iteration
indices, and either the final (`completed`) record or the record left
persisted when the external command failed. -/
def generatorRun (exitOk : Nat → Bool) (seed : Option Int)
    (rng : Nat → Int) (n : Nat) :
    List Nat × Except GenRunInfo GenRunInfo :=
  genLoopAux exitOk seed rng n 0 (genInfoAfter seed rng n 0) []

lemma genLoopAux_successes (exitOk : Nat → Bool) (seed : Option Int)
    (rng : Nat → Int) (n : Nat) :
    ∀ j, j ≤ n → (∀ i, i < j → exitOk i = true) →
      generatorRun exitOk seed rng n =
        genLoopAux exitOk seed rng (n - j) j (genInfoAfter seed rng n j)
          (List.range j) := by
  intro j
  induction j with
  | zero => intro _ _; rfl
  | succ j ih =>
    intro hj hpre
    rw [ih (by omega) (fun i hi => hpre i (by omega))]
    have hrem : n - j = (n - (j + 1)) + 1 := by omega
    rw [hrem]
    simp only [genLoopAux, hpre j (by omega), if_pos]
    have hfiles :
        ((List.range j).map (genFileName seed rng)) ++ [genFileName seed rng j]
          = (List.range (j + 1)).map (genFileName seed rng) := by
      rw [List.range_succ, List.map_append, List.map_singleton]
    rw [show (List.range j) ++ [j] = List.range (j + 1) from
      (List.range_succ j).symm]
    rw [show ({ genInfoAfter seed rng n j with
          completedIterations := j + 1,
          generatedFiles :=
            (genInfoAfter seed rng n j).generatedFiles
              ++ [genFileName seed rng j] } : GenRunInfo)
        = genInfoAfter seed rng n (j + 1) by
      simp only [genInfoAfter]
      rw [hfiles]]

/-- Per-image entry appended to `results` (and persisted by
`save_run_info`) by `generate_images`: 1-based index, seed, step count. -/
structure ImageResultW where
  index : Nat
  seed : Int
  steps : Int
deriving Repr, DecidableEq

/-- Loop body of `generate_images` over the remaining count with current
0-based index `i`: every iteration runs the external command (recorded
1-based in the attempted list); a success appends a result and re-persists
`run_info`, while a `CalledProcessError` is caught, printed, and the loop
CONTINUES with the next variation. -/
def genImagesGo (exitOk : Nat → Bool) (a : WArgs) (rng : Nat → Int) :
    Nat → Nat → List Nat → List ImageResultW →
      List Nat × List ImageResultW
  | 0, _, att, res => (att, res)
  | rem + 1, i, att, res =>
    if exitOk i then
      genImagesGo exitOk a rng rem (i + 1) (att ++ [i + 1])
        (res ++ [⟨i + 1, seedFor a.seed rng i, currentSteps a i⟩])
    else
      genImagesGo exitOk a rng rem (i + 1) (att ++ [i + 1]) res

/-- `generate_images`: run all `args.variations` iterations, returning the
(1-based) attempted variation indices and the accumulated results. -/
def generateImages (exitOk : Nat → Bool) (a : WArgs) (rng : Nat → Int) :
    List Nat × List ImageResultW :=
  genImagesGo exitOk a rng a.variations.toNat 0 [] []

lemma genImagesGo_spec (exitOk : Nat → Bool) (a : WArgs) (rng : Nat → Int) :
    ∀ (rem i : Nat) (att : List Nat) (res : List ImageResultW),
      genImagesGo exitOk a rng rem i att res
        = (att ++ (List.range' i rem).map (· + 1),
           res ++ ((List.range' i rem).filter exitOk).map
             (fun j => ⟨j + 1, seedFor a.seed rng j, currentSteps a j⟩))
  | 0, i, att, res => by simp [genImagesGo]
  | rem + 1, i, att, res => by
    have ih := genImagesGo_spec exitOk a rng rem (i + 1)
    rw [List.range'_succ]
    rcases h : exitOk i with h | h <;>
      simp only [genImagesGo, h, Bool.false_eq_true, if_false, if_true] <;>
      rw [ih] <;>
      simp [h, List.append_assoc]

/-- C6 (amended): in the package `Generator.generate`, a non-zero exit of
the external command at 0-based iteration `k` of `n` aborts the remaining
iterations — exactly iterations `0..k` are attempted — and leaves the
persisted record with `k` completed entries and status `in_progress`, with
no retry; in the wrapper's `generate_images`, by contrast, the failure is
caught and the loop continues: every one of the `variations` iterations is
attempted and each successful one appends its entry. -/
theorem partial_failure_durability (exitOk : Nat → Bool) (seed : Option Int)
    (rng : Nat → Int) (n k : Nat) (a : WArgs) (hk : k < n)
    (hpre : ∀ j, j < k → exitOk j = true) (hfail : exitOk k = false) :
    generatorRun exitOk seed rng n
      = (List.range (k + 1), .error (genInfoAfter seed rng n k))
    ∧ (generateImages exitOk a rng).1
        = (List.range a.variations.toNat).map (fun i => i + 1)
    ∧ (generateImages exitOk a rng).2
        = ((List.range a.variations.toNat).filter exitOk).map
            (fun j => ⟨j + 1, seedFor a.seed rng j, currentSteps a j⟩) := by
  refine ⟨?_, ?_, ?_⟩
  · rw [genLoopAux_successes exitOk seed rng n k (le_of_lt hk) hpre]
    have hrem : n - k = (n - (k + 1)) + 1 := by omega
    rw [hrem]
    simp only [genLoopAux, hfail, Bool.false_eq_true, if_false]
    rw [show (List.range k) ++ [k] = List.range (k + 1) from
      (List.range_succ k).symm]
  · rw [generateImages, genImagesGo_spec, List.range_eq_range']
    simp
  · rw [generateImages, genImagesGo_spec, List.range_eq_range']
    simp

/-- Witness for `partial_failure_durability`: 4 iterations whose 3rd
external invocation (0-based index 2) fails. -/
theorem partial_failure_durability_witness :
    (2 : Nat) < 4
    ∧ (generatorRun (fun i => decide (i ≠ 2)) (some 9) (fun _ => 7) 4
        = (List.range 3, .error (genInfoAfter (some 9) (fun _ => 7) 4 2))
      ∧ (generateImages (fun i => decide (i ≠ 2))
            { seed := some 10, variations := 4 } (fun _ => 7)).1
          = (List.range ((4 : Int)).toNat).map (fun i => i + 1)
      ∧ (generateImages (fun i => decide (i ≠ 2))
            { seed := some 10, variations := 4 } (fun _ => 7)).2
          = ((List.range ((4 : Int)).toNat).filter (fun i => decide (i ≠ 2))).map
              (fun j => ⟨j + 1,
                seedFor (some 10) (fun _ => 7) j,
                currentSteps { seed := some 10, variations := 4 } j⟩)) :=
  ⟨by decide,
    partial_failure_durability (fun i => decide (i ≠ 2)) (some 9) (fun _ => 7)
      4 2 { seed := some 10, variations := 4 } (by decide) (by decide) (by decide)⟩

/-- Counterexample to C6 as stated: in the wrapper, a 4-variation run with
explicit seed 10 whose 3rd external invocation exits non-zero still
attempts variation 4 (attempted list `[1,2,3,4]`), and the accumulated
results hold the 3 entries for variations 1, 2 and 4 — not exactly the 2
previously completed entries the claim requires. -/
theorem partial_failure_counterexample :
    (generateImages (fun i => decide (i ≠ 2))
        { seed := some 10, variations := 4 } (fun _ => 7)).1 = [1, 2, 3, 4]
    ∧ (generateImages (fun i => decide (i ≠ 2))
        { seed := some 10, variations := 4 } (fun _ => 7)).2
      = [⟨1, 10, 1⟩, ⟨2, 11, 1⟩, ⟨4, 13, 1⟩]
    ∧ ((generateImages (fun i => decide (i ≠ 2))
        { seed := some 10, variations := 4 } (fun _ => 7)).2).length ≠ 2 := by
  refine ⟨by decide, by decide, by decide⟩

/-! ## Prompt/style inheritance (`mflux-wrapper.py`, `get_last_settings`
lines 163-198 and `create_output_directories` lines 225-235)

The style store (`~/.mflux_styles.json`) is a name→description dictionary,
modelled as an association list with the dictionary's insertion order and
unique names. -/

/-- The `styles.values()` view used by the membership test in
`get_last_settings`. -/
def styleValues (styles : List (String × String)) : List String :=
  styles.map Prod.snd

/-- The `for name, desc in styles.items(): if desc == style_part` loop:
name of the first style whose description equals `descr`. -/
def firstStyleNamed (styles : List (String × String)) (descr : String) :
    Option String :=
  (styles.find? (fun p => decide (p.2 = descr))).map Prod.fst

/-- `get_style(name)` / `styles.get(name)`: description of the style called
`name`. -/
def styleLookup (styles : List (String × String)) (name : String) :
    Option String :=
  (styles.find? (fun p => decide (p.1 = name))).map Prod.snd

/-- Style extraction of `get_last_settings`: when the recorded prompt has
a comma and the stripped text after the first comma equals some CURRENT
style description, return the stripped base prompt and that style's name;
otherwise return the prompt unchanged and no style. -/
def extractStyle (styles : List (String × String)) (prompt : String) :
    String × Option String :=
  match pySplit1Comma prompt with
  | none => (prompt, none)
  | some (base, rest) =>
    let stylePart := pyStrip rest
    if stylePart ∈ styleValues styles then
      match firstStyleNamed styles stylePart with
      | some name => (pyStrip base, some name)
      | none => (prompt, none)
    else (prompt, none)

/-- Prompt inheritance of `create_output_directories` for an invocation
with no explicit prompt: take the prompt returned by `get_last_settings`;
append `args.style_desc` when this invocation carried a style with no
prompt; else, when the previous run recorded a style and no new style was
given, re-append that style's current description when the lookup still
succeeds. -/
def applyLastPrompt (styles : List (String × String))
    (styleDesc argsStyle : Option String) (prevPrompt : String) : String :=
  let es := extractStyle styles prevPrompt
  match styleDesc with
  | some d => es.1 ++ ", " ++ d
  | none =>
    match es.2, argsStyle with
    | some name, none =>
      match styleLookup styles name with
      | some d => es.1 ++ ", " ++ d
      | none => es.1
    | _, _ => es.1

lemma find_name_of_nodup (n d : String) :
    ∀ styles : List (String × String),
      (styles.map Prod.fst).Nodup → (n, d) ∈ styles →
      styles.find? (fun p => decide (p.1 = n)) = some (n, d)
  | [], _, hm => absurd hm (List.not_mem_nil _)
  | (m, e) :: rest, hnd, hm => by
    rw [List.map_cons, List.nodup_cons] at hnd
    by_cases hmn : m = n
    · subst hmn
      have he : e = d := by
        rcases List.mem_cons.mp hm with h | h
        · exact (((Prod.mk.injEq m d m e).mp h).2).symm
        · exact absurd (List.mem_map.mpr ⟨(m, d), h, rfl⟩) hnd.1
      subst he
      simp [List.find?]
    · have hm' : (n, d) ∈ rest := by
        rcases List.mem_cons.mp hm with h | h
        · exact absurd ((Prod.mk.injEq n d m e).mp h).1.symm hmn
        · exact h
      have ih := find_name_of_nodup n d rest hnd.2 hm'
      simp [List.find?, hmn, ih]

/-- C7 (amended): the style re-append of an inherited prompt (no explicit
prompt, no explicit style) is keyed on the recorded prompt's suffix after
the first comma matching some style's CURRENT description.  If the style's
text was edited between the two runs, the suffix no longer matches, no
style is detected, and the previous full prompt — containing the OLD style
text — is inherited verbatim; only when the suffix still equals a current
description is it re-appended, and then the "fresh" lookup returns exactly
that same text. -/
theorem style_reappend_stale (styles : List (String × String))
    (prevPrompt base rest : String)
    (hsplit : pySplit1Comma prevPrompt = some (base, rest))
    (hnodup : (styles.map Prod.fst).Nodup) :
    (pyStrip rest ∉ styleValues styles →
      applyLastPrompt styles none none prevPrompt = prevPrompt)
    ∧ (pyStrip rest ∈ styleValues styles →
      applyLastPrompt styles none none prevPrompt
        = pyStrip base ++ ", " ++ pyStrip rest) := by
  constructor
  · intro hmem
    simp [applyLastPrompt, extractStyle, hsplit, hmem]
  · intro hmem
    rcases List.mem_map.mp hmem with ⟨q, hq, hq2⟩
    have hfind : ∃ r, styles.find? (fun p => decide (p.2 = pyStrip rest)) = some r := by
      have : (styles.find? (fun p => decide (p.2 = pyStrip rest))).isSome := by
        rw [List.find?_isSome]
        exact ⟨q, hq, by simp [hq2]⟩
      exact Option.isSome_iff_exists.mp this
    rcases hfind with ⟨r, hr⟩
    have hrdesc : r.2 = pyStrip rest := by
      have := List.find?_some hr
      simpa using this
    have hrmem : r ∈ styles := List.mem_of_find?_eq_some hr
    have hlook : styleLookup styles r.1 = some r.2 := by
      rw [styleLookup, find_name_of_nodup r.1 r.2 styles hnodup (by simpa using hrmem)]
      simp
    simp [applyLastPrompt, extractStyle, hsplit, hmem, firstStyleNamed, hr, hlook, hrdesc]

/-- Witness for `style_reappend_stale`: style `ghibli` edited from
`"painterly and soft"` to `"painterly and soft and muted"` after the
previous run recorded `"a forest, painterly and soft"`. -/
theorem style_reappend_stale_witness :
    pySplit1Comma "a forest, painterly and soft"
      = some ("a forest", " painterly and soft")
    ∧ ((pyStrip " painterly and soft"
          ∉ styleValues [("ghibli", "painterly and soft and muted")] →
        applyLastPrompt [("ghibli", "painterly and soft and muted")] none none
          "a forest, painterly and soft" = "a forest, painterly and soft")
      ∧ (pyStrip " painterly and soft"
          ∈ styleValues [("ghibli", "painterly and soft and muted")] →
        applyLastPrompt [("ghibli", "painterly and soft and muted")] none none
          "a forest, painterly and soft"
          = pyStrip "a forest" ++ ", " ++ pyStrip " painterly and soft")) :=
  ⟨by decide,
    style_reappend_stale [("ghibli", "painterly and soft and muted")]
      "a forest, painterly and soft" "a forest" " painterly and soft"
      (by decide) (by decide)⟩

/-- Counterexample to C7 as stated: the previous run used style `ghibli` =
`"painterly and soft"`; the style is edited to
`"painterly and soft and muted"`; a new run with no explicit style and no
explicit prompt inherits the OLD prompt text unchanged, not the prompt with
the updated style text appended. -/
theorem style_reappend_counterexample :
    applyLastPrompt [("ghibli", "painterly and soft and muted")] none none
      "a forest, painterly and soft" = "a forest, painterly and soft"
    ∧ applyLastPrompt [("ghibli", "painterly and soft and muted")] none none
      "a forest, painterly and soft"
      ≠ "a forest, painterly and soft and muted" := by
  refine ⟨by decide, by decide⟩

/-! ## CLI `generate` flow (`cli/main.py`, lines 32-59) and wrapper `main`

In the package CLI, `Session(force_new=...)` is constructed FIRST — creating
a session directory whenever none is reused — and only then is
`--vary-steps` validated (`if not seed: raise click.UsageError(...)`,
caught by the `except Exception` handler which exits non-zero).  In the
wrapper, the equivalent `--iterate` validation happens inside `parse_args`,
before `create_output_directories` runs. -/

/-- Python truthiness of the optional `seed` value: the CLI guard is
`if not seed`, so `None` AND `0` both count as missing. -/
def pyTruthyInt (s : Option Int) : Bool :=
  match s with
  | none => false
  | some n => decide (n ≠ 0)

/-- The `generate` command of the package CLI, from `Session` construction
through the `--vary-steps` validation: returns the outcome together with
the list of directories created on disk (the new session directory, when no
existing one was reused).  Generation after a successful validation is
modelled separately by `generatorRun`. -/
def cliGenerate (varySteps : Option String) (seed : Option Int)
    (forceNew : Bool) (now timeout : Int) (existing : List SessEntry) :
    Except String Unit × List String :=
  let created :=
    match getOrCreateSessionDir forceNew now timeout existing with
    | .reuse _ => []
    | .create t => [newSessionName t]
  match varySteps with
  | some s =>
    if pyTruthyInt seed = false then
      (.error "--vary-steps requires --seed to be set", created)
    else
      match parseStepList s with
      | none => (.error "--vary-steps must be comma-separated integers", created)
      | some _ => (.ok (), created)
  | none => (.ok (), created)

/-- The wrapper's `main`: `parse_args` (with its `--iterate` validation)
runs before `create_output_directories`, so a validation error leaves no
directory behind; `dirsLater` abstracts whatever directories the later
phase would create on the success path. -/
def wrapperInvoke (a : WArgs) (dirsLater : List String) :
    Except String Unit × List String :=
  match validateIterate a with
  | .error e => (.error e, [])
  | .ok _ => (.ok (), dirsLater)

/-- C5 (amended): requesting step-variation mode without a base seed exits
non-zero in both implementations, and in the wrapper the error is raised
during argument parsing, before any directory is created; but in the
package CLI the session directory is resolved — and created, when no valid
session exists — BEFORE the missing-seed check, so a new session directory
can exist on disk afterwards. -/
theorem config_error_side_effects (a : WArgs) (s vs : String)
    (dirsLater : List String) (now timeout : Int) (existing : List SessEntry)
    (seed : Option Int) (hit : a.iterate = some s) (hseed : a.seed = none)
    (hfv : findValidSession now timeout existing = none)
    (hsv : pyTruthyInt seed = false) :
    wrapperInvoke a dirsLater
      = (.error "--iterate requires --seed to be specified", [])
    ∧ (cliGenerate (some vs) seed false now timeout existing).1
        = .error "--vary-steps requires --seed to be set"
    ∧ (cliGenerate (some vs) seed false now timeout existing).2
        = [newSessionName now] := by
  refine ⟨?_, ?_, ?_⟩
  · simp [wrapperInvoke, validateIterate, hit, hseed]
  · simp [cliGenerate, getOrCreateSessionDir, hfv, hsv]
  · simp [cliGenerate, getOrCreateSessionDir, hfv, hsv]

/-- Witness for `config_error_side_effects`: `--iterate 1,3` /
`--vary-steps 1,3,5,9` with no seed, an empty base directory, time 0 and a
4-hour timeout. -/
theorem config_error_side_effects_witness :
    pyTruthyInt none = false
    ∧ (wrapperInvoke { iterate := some "1,3" } ["later"]
        = (.error "--iterate requires --seed to be specified", [])
      ∧ (cliGenerate (some "1,3,5,9") none false 0 4 []).1
          = .error "--vary-steps requires --seed to be set"
      ∧ (cliGenerate (some "1,3,5,9") none false 0 4 []).2
          = [newSessionName 0]) :=
  ⟨rfl,
    config_error_side_effects { iterate := some "1,3" } "1,3" "1,3,5,9"
      ["later"] 0 4 [] none rfl rfl rfl rfl⟩

/-- Counterexample to C5 as stated: in the package CLI, a step-variation
request without a seed (here with `--force-new-session`, starting from an
empty base directory at time 0) exits with a configuration error, yet a new
session directory (`mflux_output_0`) HAS been created on disk. -/
theorem config_error_counterexample :
    (cliGenerate (some "1,3,5,9") none true 0 4 []).1
      = .error "--vary-steps requires --seed to be set"
    ∧ (cliGenerate (some "1,3,5,9") none true 0 4 []).2 = ["mflux_output_0"]
    ∧ (["mflux_output_0"] : List String) ≠ ([] : List String) := by
  refine ⟨rfl, rfl, by decide⟩
